import Mathlib

/-!
Verification of the document-editing core of the gdrive-mcp repository.

The development shallowly embeds the two halves of the core:

* the Instruction Compiler (`handleJsonPathOperation` and
  `generateRequestsFromContent` from `src/tools/update-doc-content.ts`),
  which turns one semantic edit intent plus a JSONPath-resolved target
  element into an ordered list of Google-Docs batch-update requests, and
* the Markdown Renderer (`processTextRun`, `processParagraph`,
  `processTable` from `src/tools/get-doc-contents.ts`), which renders a
  document snapshot to Markdown.

JavaScript truthiness is modelled explicitly where the source relies on
it: a possibly-absent number field is `Option Nat` and its truthiness
test accepts only a present, non-zero value; a possibly-absent string is
truthy only when present and non-empty; a present object is always
truthy.  JavaScript string `.length` is modelled by `String.length`,
which agrees with UTF-16 code-unit counts on the texts involved here.
-/

instance {ε α : Type} [DecidableEq ε] [DecidableEq α] : DecidableEq (Except ε α)
  | .error a, .error b =>
    if h : a = b then .isTrue (by rw [h]) else .isFalse (by simp [h])
  | .error _, .ok _ => .isFalse (by simp)
  | .ok _, .error _ => .isFalse (by simp)
  | .ok a, .ok b =>
    if h : a = b then .isTrue (by rw [h]) else .isFalse (by simp [h])

/-! ## Content items and style patches (zod input schemas) -/

inductive ContentItem where
  | heading (level : Nat) (text : String)
  | paragraph (text : String)
  | bulletList (items : List String)
deriving DecidableEq

structure RgbColor where
  red : Option Rat := none
  green : Option Rat := none
  blue : Option Rat := none
deriving DecidableEq

structure LinkPayload where
  url : String
deriving DecidableEq

structure TextStylePatch where
  bold : Option Bool := none
  italic : Option Bool := none
  underline : Option Bool := none
  strikethrough : Option Bool := none
  fontSize : Option Rat := none
  foregroundColor : Option RgbColor := none
  backgroundColor : Option RgbColor := none
  link : Option LinkPayload := none
deriving DecidableEq

inductive HeadingLevelName where
  | NORMAL_TEXT | HEADING_1 | HEADING_2 | HEADING_3 | HEADING_4 | HEADING_5 | HEADING_6
deriving DecidableEq

inductive AlignmentName where
  | START | CENTER | END | JUSTIFIED
deriving DecidableEq

inductive DirectionName where
  | LEFT_TO_RIGHT | RIGHT_TO_LEFT
deriving DecidableEq

structure ParagraphStylePatch where
  headingLevel : Option HeadingLevelName := none
  alignment : Option AlignmentName := none
  lineSpacing : Option Rat := none
  direction : Option DirectionName := none
  indentStart : Option Rat := none
  indentEnd : Option Rat := none
  indentFirstLine : Option Rat := none
deriving DecidableEq

def headingLevelString : HeadingLevelName → String
  | .NORMAL_TEXT => "NORMAL_TEXT"
  | .HEADING_1 => "HEADING_1"
  | .HEADING_2 => "HEADING_2"
  | .HEADING_3 => "HEADING_3"
  | .HEADING_4 => "HEADING_4"
  | .HEADING_5 => "HEADING_5"
  | .HEADING_6 => "HEADING_6"

def alignmentString : AlignmentName → String
  | .START => "START"
  | .CENTER => "CENTER"
  | .END => "END"
  | .JUSTIFIED => "JUSTIFIED"

def directionString : DirectionName → String
  | .LEFT_TO_RIGHT => "LEFT_TO_RIGHT"
  | .RIGHT_TO_LEFT => "RIGHT_TO_LEFT"

/-! ## Request payloads (docs_v1 schema objects built by the compiler) -/

structure Dimension where
  magnitude : Rat
  unit : String
deriving DecidableEq

structure RgbColorWrap where
  rgbColor : RgbColor
deriving DecidableEq

structure OptionalColor where
  color : RgbColorWrap
deriving DecidableEq

structure TextStyleUpdate where
  bold : Option Bool := none
  italic : Option Bool := none
  underline : Option Bool := none
  strikethrough : Option Bool := none
  fontSize : Option Dimension := none
  foregroundColor : Option OptionalColor := none
  backgroundColor : Option OptionalColor := none
  link : Option LinkPayload := none
deriving DecidableEq

structure ParagraphStyleUpdate where
  namedStyleType : Option String := none
  alignment : Option String := none
  lineSpacing : Option Rat := none
  direction : Option String := none
  indentStart : Option Dimension := none
  indentEnd : Option Dimension := none
  indentFirstLine : Option Dimension := none
deriving DecidableEq

inductive Request where
  | insertText (index : Nat) (text : String)
  | deleteContentRange (startIndex endIndex : Nat)
  | updateTextStyle (startIndex endIndex : Nat) (textStyle : TextStyleUpdate) (fields : String)
  | updateParagraphStyle (startIndex endIndex : Nat) (paragraphStyle : ParagraphStyleUpdate) (fields : String)
  | createParagraphBullets (startIndex endIndex : Nat) (bulletPreset : String)
deriving DecidableEq

/-! ## Target elements and operations -/

structure Element where
  startIndex : Option Nat := none
  endIndex : Option Nat := none
deriving DecidableEq

inductive Operation where
  | insertAfter | insertBefore | replace | delete | updateTextStyle | updateParagraphStyle
deriving DecidableEq

def opName : Operation → String
  | .insertAfter => "insertAfter"
  | .insertBefore => "insertBefore"
  | .replace => "replace"
  | .delete => "delete"
  | .updateTextStyle => "updateTextStyle"
  | .updateParagraphStyle => "updateParagraphStyle"

structure JsonPathArgs where
  operation : Operation
  content : Option (List ContentItem) := none
  textStyle : Option TextStylePatch := none
  paragraphStyle : Option ParagraphStylePatch := none
deriving DecidableEq

/-- JS truthiness of a possibly-absent numeric index field:
`!targetElement.startIndex` is true when the field is absent or zero. -/
def truthyIdx : Option Nat → Bool
  | some n => n != 0
  | none => false

/-! ## Instruction generation from content items

`generateRequestsFromContent` threads the mutable `currentIndex` of the
source through a fold, appending requests in the order the source pushes
them. -/

def generateRequestsFromContent (content : List ContentItem) (startIndex : Nat) : List Request :=
  (content.foldl
    (fun acc item =>
      match item with
      | ContentItem.heading level t =>
        let text := t ++ "\n"
        (acc.1 ++
          [Request.insertText acc.2 text,
           Request.updateParagraphStyle acc.2 (acc.2 + text.length)
             { namedStyleType := some ("HEADING_" ++ toString level) } "namedStyleType"],
         acc.2 + text.length)
      | ContentItem.paragraph t =>
        let text := t ++ "\n"
        (acc.1 ++ [Request.insertText acc.2 text], acc.2 + text.length)
      | ContentItem.bulletList items =>
        items.foldl
          (fun acc2 bulletItem =>
            let text := bulletItem ++ "\n"
            let textStartIndex := acc2.2
            let textEndIndex := acc2.2 + text.length
            (acc2.1 ++
              [Request.insertText acc2.2 text,
               Request.updateParagraphStyle textStartIndex textEndIndex
                 { namedStyleType := some "NORMAL_TEXT" } "namedStyleType",
               Request.createParagraphBullets textStartIndex textEndIndex
                 "BULLET_DISC_CIRCLE_SQUARE"],
             acc2.2 + text.length))
          acc)
    (([] : List Request), startIndex)).1

/-! ## Sparse field-mask construction -/

def maskIf (present : Bool) (name : String) : List String :=
  if present then [name] else []

/-- Mirrors the sequence of `if (... !== undefined) { payload.x = ...; fields.push("x") }`
blocks for `updateTextStyle`; the pushes happen in the source's fixed order.
Color and link fields are objects, which are always truthy in JS when present. -/
def buildTextStyleUpdate (ts : TextStylePatch) : TextStyleUpdate × List String :=
  ({ bold := ts.bold
     italic := ts.italic
     underline := ts.underline
     strikethrough := ts.strikethrough
     fontSize := ts.fontSize.map (fun m => { magnitude := m, unit := "PT" })
     foregroundColor := ts.foregroundColor.map (fun c => { color := { rgbColor := c } })
     backgroundColor := ts.backgroundColor.map (fun c => { color := { rgbColor := c } })
     link := ts.link.map (fun l => { url := l.url }) },
   maskIf ts.bold.isSome "bold" ++ maskIf ts.italic.isSome "italic" ++
   maskIf ts.underline.isSome "underline" ++ maskIf ts.strikethrough.isSome "strikethrough" ++
   maskIf ts.fontSize.isSome "fontSize" ++ maskIf ts.foregroundColor.isSome "foregroundColor" ++
   maskIf ts.backgroundColor.isSome "backgroundColor" ++ maskIf ts.link.isSome "link")

/-- Mirrors the field-mask construction for `updateParagraphStyle`. The enum-typed
fields (`headingLevel`, `alignment`, `direction`) are checked by truthiness in the
source, but their zod enum values are non-empty strings, so a present value is
always truthy. -/
def buildParagraphStyleUpdate (ps : ParagraphStylePatch) : ParagraphStyleUpdate × List String :=
  ({ namedStyleType := ps.headingLevel.map headingLevelString
     alignment := ps.alignment.map alignmentString
     lineSpacing := ps.lineSpacing
     direction := ps.direction.map directionString
     indentStart := ps.indentStart.map (fun m => { magnitude := m, unit := "PT" })
     indentEnd := ps.indentEnd.map (fun m => { magnitude := m, unit := "PT" })
     indentFirstLine := ps.indentFirstLine.map (fun m => { magnitude := m, unit := "PT" }) },
   maskIf ps.headingLevel.isSome "namedStyleType" ++ maskIf ps.alignment.isSome "alignment" ++
   maskIf ps.lineSpacing.isSome "lineSpacing" ++ maskIf ps.direction.isSome "direction" ++
   maskIf ps.indentStart.isSome "indentStart" ++ maskIf ps.indentEnd.isSome "indentEnd" ++
   maskIf ps.indentFirstLine.isSome "indentFirstLine")

/-! ## The per-operation branch of handleJsonPathOperation -/

def compileForTarget (targetElement : Element) (args : JsonPathArgs) : Except String (List Request) :=
  match args.operation with
  | Operation.updateTextStyle =>
    match args.textStyle with
    | none => Except.error "updateTextStyle operation requires textStyle to be provided"
    | some ts =>
      if !truthyIdx targetElement.startIndex || !truthyIdx targetElement.endIndex then
        Except.error "Target element must have startIndex and endIndex for updateTextStyle operation"
      else
        let built := buildTextStyleUpdate ts
        Except.ok [Request.updateTextStyle (targetElement.startIndex.getD 0)
          (targetElement.endIndex.getD 0) built.1 (String.intercalate "," built.2)]
  | Operation.updateParagraphStyle =>
    match args.paragraphStyle with
    | none => Except.error "updateParagraphStyle operation requires paragraphStyle to be provided"
    | some ps =>
      if !truthyIdx targetElement.startIndex || !truthyIdx targetElement.endIndex then
        Except.error "Target element must have startIndex and endIndex for updateParagraphStyle operation"
      else
        let built := buildParagraphStyleUpdate ps
        Except.ok [Request.updateParagraphStyle (targetElement.startIndex.getD 0)
          (targetElement.endIndex.getD 0) built.1 (String.intercalate "," built.2)]
  | Operation.delete =>
    if !truthyIdx targetElement.startIndex || !truthyIdx targetElement.endIndex then
      Except.error "Target element must have startIndex and endIndex for delete operation"
    else
      Except.ok [Request.deleteContentRange (targetElement.startIndex.getD 0)
        (targetElement.endIndex.getD 0)]
  | Operation.replace =>
    match args.content with
    | none => Except.error "Replace operation requires content to be provided"
    | some content =>
      if content.isEmpty then
        Except.error "Replace operation requires content to be provided"
      else if !truthyIdx targetElement.startIndex || !truthyIdx targetElement.endIndex then
        Except.error "Target element must have startIndex and endIndex for replace operation"
      else
        Except.ok (Request.deleteContentRange (targetElement.startIndex.getD 0)
            (targetElement.endIndex.getD 0) ::
          generateRequestsFromContent content (targetElement.startIndex.getD 0))
  | Operation.insertAfter =>
    match args.content with
    | none => Except.error (opName Operation.insertAfter ++ " operation requires content to be provided")
    | some content =>
      if content.isEmpty then
        Except.error (opName Operation.insertAfter ++ " operation requires content to be provided")
      else if !truthyIdx targetElement.endIndex then
        Except.error "Target element does not have an endIndex"
      else
        Except.ok (generateRequestsFromContent content (targetElement.endIndex.getD 0))
  | Operation.insertBefore =>
    match args.content with
    | none => Except.error (opName Operation.insertBefore ++ " operation requires content to be provided")
    | some content =>
      if content.isEmpty then
        Except.error (opName Operation.insertBefore ++ " operation requires content to be provided")
      else if !truthyIdx targetElement.startIndex then
        Except.error "Target element does not have a startIndex"
      else
        Except.ok (generateRequestsFromContent content (targetElement.startIndex.getD 0))

/-- The locator logic of `handleJsonPathOperation`: the JSONPath result list must
contain exactly one node, otherwise the handler throws before building requests. -/
def compileOperation (target : String) (results : List Element) (args : JsonPathArgs) :
    Except String (List Request) :=
  match results with
  | [] => Except.error ("No element found at JSONPath: " ++ target)
  | [targetElement] => compileForTarget targetElement args
  | _ :: _ :: _ =>
    Except.error ("Multiple elements found at JSONPath: " ++ target ++ ". Path must be unique.")

/-! ## Document-id extraction (regex modelled on character lists) -/

def isIdChar (c : Char) : Bool :=
  c.isAlphanum || c = '-' || c = '_'

def listStartsWith : List Char → List Char → Bool
  | [], _ => true
  | _ :: _, [] => false
  | p :: ps, c :: cs => p = c && listStartsWith ps cs

def takeIdRun : List Char → List Char
  | [] => []
  | c :: cs => if isIdChar c then c :: takeIdRun cs else []

/-- Scans for the first position where `/\/document\/d\/([a-zA-Z0-9-_]+)/` matches
(the literal followed by at least one id character), returning the greedy capture. -/
def findDocUrlCapture : List Char → Option (List Char)
  | [] => none
  | c :: rest =>
    if listStartsWith "/document/d/".toList (c :: rest) then
      let run := takeIdRun ((c :: rest).drop 12)
      if run.isEmpty then findDocUrlCapture rest else some run
    else
      findDocUrlCapture rest

def extractDocId (input : String) : Option String :=
  match findDocUrlCapture input.toList with
  | some run => some (String.mk run)
  | none =>
    if !input.toList.isEmpty && input.toList.all isIdChar then some input else none

/-- The validation-and-compilation pipeline of `handleJsonPathOperation`, up to the
point where the compiled request batch is submitted: `Except.ok requests` means the
handler reaches `docs.documents.batchUpdate` with exactly `requests`; `Except.error`
means it throws before any batch-update call. -/
def handleJsonPathOperation (doc_id_or_url target : String) (results : List Element)
    (args : JsonPathArgs) : Except String (List Request) :=
  match extractDocId doc_id_or_url with
  | none => Except.error "Invalid document ID or URL"
  | some _ => compileOperation target results args

/-! ## Markdown renderer: document snapshot shapes -/

structure WeightedFontFamily where
  fontFamily : Option String := none
deriving DecidableEq

structure DocLink where
  url : Option String := none
deriving DecidableEq

structure DocTextStyle where
  bold : Option Bool := none
  italic : Option Bool := none
  underline : Option Bool := none
  strikethrough : Option Bool := none
  link : Option DocLink := none
  weightedFontFamily : Option WeightedFontFamily := none
deriving DecidableEq

structure TextRun where
  content : Option String := none
  textStyle : Option DocTextStyle := none
deriving DecidableEq

structure DocParagraphStyle where
  namedStyleType : Option String := none
deriving DecidableEq

structure DocBullet where
  nestingLevel : Option Nat := none
deriving DecidableEq

structure ParagraphElement where
  textRun : Option TextRun := none
deriving DecidableEq

structure Paragraph where
  paragraphStyle : Option DocParagraphStyle := none
  bullet : Option DocBullet := none
  elements : List ParagraphElement := []
deriving DecidableEq

structure CellContentElement where
  paragraph : Option Paragraph := none
deriving DecidableEq

structure TableCell where
  content : List CellContentElement := []
deriving DecidableEq

structure TableRow where
  tableCells : List TableCell := []
deriving DecidableEq

structure Table where
  tableRows : List TableRow := []
deriving DecidableEq

/-! ## String helpers mirroring the JS operations used by the renderer -/

/-- The `+=` accumulation of the renderer loops. -/
def concatStrings : List String → String
  | [] => ""
  | s :: rest => s ++ concatStrings rest

def listHasSub (sub : List Char) : List Char → Bool
  | [] => sub.isEmpty
  | c :: cs => listStartsWith sub (c :: cs) || listHasSub sub cs

/-- JS `s.includes(pat)`. -/
def strContains (s pat : String) : Bool :=
  listHasSub pat.toList s.toList

/-- JS `text.replace(/\n+$/, "")`. -/
def trimTrailingNewlines (s : String) : String :=
  String.mk ((s.toList.reverse.dropWhile (fun c => c = '\n')).reverse)

/-- JS `text.replace(/\n/g, " ")`: every newline becomes a single space. -/
def collapseNewlines (s : String) : String :=
  String.mk (s.toList.map (fun c => if c = '\n' then ' ' else c))

/-- JS `String.prototype.trim()`: strip whitespace from both ends. -/
def jsTrim (s : String) : String :=
  String.mk (((s.toList.dropWhile Char.isWhitespace).reverse.dropWhile Char.isWhitespace).reverse)

/-- JS `"  ".repeat(n)`-style repetition. -/
def strRepeat (piece : String) (n : Nat) : String :=
  concatStrings (List.replicate n piece)

/-! ## Style composer: processTextRun -/

/-- JS truthiness of `style.link?.url`: present and non-empty. -/
def linkUrl (style : DocTextStyle) : Option String :=
  match style.link with
  | some l =>
    match l.url with
    | some u => if u != "" then some u else none
    | none => none
  | none => none

def monoFont (style : DocTextStyle) : Bool :=
  match style.weightedFontFamily with
  | some wff =>
    match wff.fontFamily with
    | some name => strContains name "Courier" || strContains name "Mono"
    | none => false
  | none => false

def processTextRun (textRun : TextRun) : String :=
  let text := textRun.content.getD ""
  match textRun.textStyle with
  | none => text
  | some style =>
    if text = "\n" then text
    else
      let formatted := text
      let formatted :=
        if style.bold.getD false && style.italic.getD false then "***" ++ formatted ++ "***"
        else if style.bold.getD false then "**" ++ formatted ++ "**"
        else if style.italic.getD false then "*" ++ formatted ++ "*"
        else formatted
      let formatted := if style.underline.getD false then "__" ++ formatted ++ "__" else formatted
      let formatted := if style.strikethrough.getD false then "~~" ++ formatted ++ "~~" else formatted
      let formatted :=
        match linkUrl style with
        | some url => "[" ++ formatted ++ "](" ++ url ++ ")"
        | none => formatted
      let formatted := if monoFont style then "`" ++ formatted ++ "`" else formatted
      formatted

/-! ## processParagraph -/

def paragraphNamedStyle (paragraph : Paragraph) : Option String :=
  paragraph.paragraphStyle.bind (fun ps => ps.namedStyleType)

def paragraphRunsText (paragraph : Paragraph) : String :=
  concatStrings (paragraph.elements.map (fun element =>
    match element.textRun with
    | some tr => processTextRun tr
    | none => ""))

def processParagraph (paragraph : Paragraph) : String :=
  let style := paragraphNamedStyle paragraph
  let trimmedText := trimTrailingNewlines (paragraphRunsText paragraph)
  if trimmedText = "" then "\n"
  else if style = some "HEADING_1" then "# " ++ trimmedText ++ "\n\n"
  else if style = some "HEADING_2" then "## " ++ trimmedText ++ "\n\n"
  else if style = some "HEADING_3" then "### " ++ trimmedText ++ "\n\n"
  else if style = some "HEADING_4" then "#### " ++ trimmedText ++ "\n\n"
  else if style = some "HEADING_5" then "##### " ++ trimmedText ++ "\n\n"
  else if style = some "HEADING_6" then "###### " ++ trimmedText ++ "\n\n"
  else if style = some "TITLE" then "# " ++ trimmedText ++ "\n\n"
  else if style = some "SUBTITLE" then "## " ++ trimmedText ++ "\n\n"
  else
    match paragraph.bullet with
    | some bullet =>
      let nestingLevel := bullet.nestingLevel.getD 0
      let indent := strRepeat "  " nestingLevel
      let marker := if nestingLevel = 0 then "1." else "-"
      indent ++ marker ++ " " ++ trimmedText ++ "\n"
    | none => trimmedText ++ "\n\n"

/-! ## processTable -/

/-- One table cell's text: concatenate, over the cell's paragraphs and their runs,
each run's content with newlines collapsed to spaces and trimmed (runs whose content
is absent or the empty string are skipped by the truthiness test in the source). -/
def tableCellText (cell : TableCell) : String :=
  concatStrings (cell.content.map (fun element =>
    match element.paragraph with
    | some para =>
      concatStrings (para.elements.map (fun textElement =>
        match textElement.textRun with
        | some tr =>
          match tr.content with
          | some c => if c != "" then jsTrim (collapseNewlines c) else ""
          | none => ""
        | none => ""))
    | none => ""))

/-- The body of the `for` loop over table rows, carrying the loop index `i`; the
separator row is appended right after the row at index 0. -/
def processTableRows : Nat → List TableRow → String
  | _, [] => ""
  | i, row :: rest =>
    let cellContents := row.tableCells.map (fun cell =>
      let cellText := tableCellText cell
      if cellText = "" then " " else cellText)
    let line := "| " ++ String.intercalate " | " cellContents ++ " |\n"
    let sep :=
      if i = 0 then "| " ++ String.intercalate " | " (cellContents.map (fun _ => "---")) ++ " |\n"
      else ""
    line ++ sep ++ processTableRows (i + 1) rest

def processTable (table : Table) : String :=
  if table.tableRows.isEmpty then ""
  else "\n" ++ processTableRows 0 table.tableRows ++ "\n"

/-! ## Extraction helpers for theorem statements -/

def insertTextIndices (requests : List Request) : List Nat :=
  requests.filterMap (fun r =>
    match r with
    | Request.insertText i _ => some i
    | _ => none)

def insertTextPayloads (requests : List Request) : List (Nat × String) :=
  requests.filterMap (fun r =>
    match r with
    | Request.insertText i t => some (i, t)
    | _ => none)

def c1Content : List ContentItem :=
  [ContentItem.heading 2 "H", ContentItem.paragraph "P", ContentItem.bulletList ["A", "B"]]

/-- C1 (counterexample): the compiled instruction list for the insert of
`[heading(2,"H"), paragraph("P"), bulletList(["A","B"])]` at anchor 10 contains
four `insertText` requests, not five: its insertion points are not
`[10, 12, 14, 16, 18]` as the claim states. -/
theorem c1_cursor_counterexample :
    ¬ insertTextIndices (generateRequestsFromContent c1Content 10) = [10, 12, 14, 16, 18] := by
  decide

/-- C1 (amended): compiling the insert of `[heading(2,"H"), paragraph("P"),
bulletList(["A","B"])]` at anchor 10 yields `insertText` insertion points exactly
`10, 12, 14, 16` in that order (the running cursor takes the values 10, 12, 14, 16
and ends at 18); each inserted text is the item text plus a trailing newline, so
each advances the cursor by 2; and the heading's paragraph-style instruction spans
exactly `[10,12)` with named style `HEADING_2`. -/
theorem c1_cursor_amended :
    insertTextIndices (generateRequestsFromContent c1Content 10) = [10, 12, 14, 16] ∧
    insertTextPayloads (generateRequestsFromContent c1Content 10) =
      [(10, "H\n"), (12, "P\n"), (14, "A\n"), (16, "B\n")] ∧
    generateRequestsFromContent c1Content 10 =
      [Request.insertText 10 "H\n",
       Request.updateParagraphStyle 10 12 { namedStyleType := some "HEADING_2" } "namedStyleType",
       Request.insertText 12 "P\n",
       Request.insertText 14 "A\n",
       Request.updateParagraphStyle 14 16 { namedStyleType := some "NORMAL_TEXT" } "namedStyleType",
       Request.createParagraphBullets 14 16 "BULLET_DISC_CIRCLE_SQUARE",
       Request.insertText 16 "B\n",
       Request.updateParagraphStyle 16 18 { namedStyleType := some "NORMAL_TEXT" } "namedStyleType",
       Request.createParagraphBullets 16 18 "BULLET_DISC_CIRCLE_SQUARE"] := by
  refine ⟨?_, ?_, ?_⟩ <;> decide

/-- C2: the locator logic fails with the not-found error on zero JSONPath matches,
fails with the ambiguity error on more than one match, and compiles instructions
only when the match count is exactly one. -/
theorem c2_locator_uniqueness (target : String) (results : List Element) (args : JsonPathArgs) :
    (results.length = 0 →
      compileOperation target results args =
        Except.error ("No element found at JSONPath: " ++ target)) ∧
    (1 < results.length →
      compileOperation target results args =
        Except.error ("Multiple elements found at JSONPath: " ++ target ++ ". Path must be unique.")) ∧
    (∀ requests, compileOperation target results args = Except.ok requests →
      results.length = 1) := by
  match results with
  | [] =>
    refine ⟨fun _ => rfl, fun h => ?_, fun requests h => ?_⟩
    · simp at h
    · exact absurd h (by simp [compileOperation])
  | [t] =>
    refine ⟨fun h => ?_, fun h => ?_, fun requests _ => rfl⟩
    · simp at h
    · simp at h
  | a :: b :: rest =>
    refine ⟨fun h => ?_, fun _ => rfl, fun requests h => ?_⟩
    · simp at h
    · exact absurd h (by simp [compileOperation])

/-- C2 witness: concrete zero-match and two-match result lists fail with the
respective errors. -/
theorem c2_locator_uniqueness_witness :
    compileOperation "$.a" [] { operation := Operation.delete } =
      Except.error ("No element found at JSONPath: " ++ "$.a") ∧
    compileOperation "$.b" [{ startIndex := some 1 }, { startIndex := some 2 }]
        { operation := Operation.delete } =
      Except.error ("Multiple elements found at JSONPath: " ++ "$.b" ++ ". Path must be unique.") :=
  ⟨(c2_locator_uniqueness "$.a" [] { operation := Operation.delete }).1 rfl,
   (c2_locator_uniqueness "$.b" [{ startIndex := some 1 }, { startIndex := some 2 }]
      { operation := Operation.delete }).2.1 (by decide)⟩

/-- C3: a replace intent with a rangeable target `[s,e)` and non-empty content
compiles to exactly one `deleteRange{s,e}` followed by the insert instructions for
the new content anchored at `s`; in particular, replace on `[20,30)` with
`[paragraph("X")]` emits `deleteRange{20,30}` then `insertText{20,"X\n"}` and
nothing else. -/
theorem c3_replace_decomposition :
    (∀ (e : Element) (s en : Nat) (content : List ContentItem) (args : JsonPathArgs),
      args.operation = Operation.replace → args.content = some content → content ≠ [] →
      e.startIndex = some s → e.endIndex = some en → s ≠ 0 → en ≠ 0 →
      compileForTarget e args =
        Except.ok (Request.deleteContentRange s en :: generateRequestsFromContent content s)) ∧
    compileForTarget { startIndex := some 20, endIndex := some 30 }
        { operation := Operation.replace, content := some [ContentItem.paragraph "X"] } =
      Except.ok [Request.deleteContentRange 20 30, Request.insertText 20 "X\n"] := by
  constructor
  · intro e s en content args hop hc hne hs he hs0 he0
    match content, hne with
    | c0 :: cs, _ =>
      simp [compileForTarget, hop, hc, hs, he, truthyIdx, hs0, he0]
  · decide

/-- C3 witness: the general replace decomposition applied at the concrete target
`[20,30)` with content `[paragraph("X")]`. -/
theorem c3_replace_decomposition_witness :
    compileForTarget { startIndex := some 20, endIndex := some 30 }
        { operation := Operation.replace, content := some [ContentItem.paragraph "X"] } =
      Except.ok (Request.deleteContentRange 20 30 ::
        generateRequestsFromContent [ContentItem.paragraph "X"] 20) :=
  c3_replace_decomposition.1 { startIndex := some 20, endIndex := some 30 } 20 30
    [ContentItem.paragraph "X"]
    { operation := Operation.replace, content := some [ContentItem.paragraph "X"] }
    rfl rfl (by decide) rfl rfl (by decide) (by decide)

lemma mem_maskIf (name attr : String) (c : Bool) :
    name ∈ maskIf c attr ↔ (name = attr ∧ c = true) := by
  cases c <;> simp [maskIf]

/-- C4: an attribute's field name appears in the emitted field-mask list exactly
when that attribute is explicitly present in the style patch (for `updateTextStyle`
and `updateParagraphStyle` alike); for the patch `{bold:true}` the mask is exactly
`["bold"]` regardless of all other unset fields, and an explicitly-false boolean
such as `{bold:false}` is still included in both the payload and the mask. -/
theorem c4_field_mask_sparsity :
    (∀ (ts : TextStylePatch) (name : String),
      name ∈ (buildTextStyleUpdate ts).2 ↔
        ((name = "bold" ∧ ts.bold.isSome = true) ∨
         (name = "italic" ∧ ts.italic.isSome = true) ∨
         (name = "underline" ∧ ts.underline.isSome = true) ∨
         (name = "strikethrough" ∧ ts.strikethrough.isSome = true) ∨
         (name = "fontSize" ∧ ts.fontSize.isSome = true) ∨
         (name = "foregroundColor" ∧ ts.foregroundColor.isSome = true) ∨
         (name = "backgroundColor" ∧ ts.backgroundColor.isSome = true) ∨
         (name = "link" ∧ ts.link.isSome = true))) ∧
    (∀ (ps : ParagraphStylePatch) (name : String),
      name ∈ (buildParagraphStyleUpdate ps).2 ↔
        ((name = "namedStyleType" ∧ ps.headingLevel.isSome = true) ∨
         (name = "alignment" ∧ ps.alignment.isSome = true) ∨
         (name = "lineSpacing" ∧ ps.lineSpacing.isSome = true) ∨
         (name = "direction" ∧ ps.direction.isSome = true) ∨
         (name = "indentStart" ∧ ps.indentStart.isSome = true) ∨
         (name = "indentEnd" ∧ ps.indentEnd.isSome = true) ∨
         (name = "indentFirstLine" ∧ ps.indentFirstLine.isSome = true))) ∧
    (buildTextStyleUpdate { bold := some true }).2 = ["bold"] ∧
    (buildTextStyleUpdate { bold := some false }).2 = ["bold"] ∧
    (buildTextStyleUpdate { bold := some false }).1.bold = some false := by
  refine ⟨?_, ?_, rfl, rfl, rfl⟩
  · intro ts name
    simp [buildTextStyleUpdate, mem_maskIf]
  · intro ps name
    simp [buildParagraphStyleUpdate, mem_maskIf]

/-! ## Spec-side composition steps for the style composer (following spec section 4.2) -/

def emphasisWrap (style : DocTextStyle) (s : String) : String :=
  if style.bold.getD false && style.italic.getD false then "***" ++ s ++ "***"
  else if style.bold.getD false then "**" ++ s ++ "**"
  else if style.italic.getD false then "*" ++ s ++ "*"
  else s

def underlineWrap (style : DocTextStyle) (s : String) : String :=
  if style.underline.getD false then "__" ++ s ++ "__" else s

def strikethroughWrap (style : DocTextStyle) (s : String) : String :=
  if style.strikethrough.getD false then "~~" ++ s ++ "~~" else s

def linkWrap (style : DocTextStyle) (s : String) : String :=
  match linkUrl style with
  | some url => "[" ++ s ++ "](" ++ url ++ ")"
  | none => s

def codeWrap (style : DocTextStyle) (s : String) : String :=
  if monoFont style then "`" ++ s ++ "`" else s

/-- C5: the style composer returns a bare newline unformatted (and any run without
a style record unformatted), and otherwise applies its markers in the fixed order
bold/italic emphasis, then underline, then strikethrough, then link, then code —
so for every combination of flags the output nests decorations inside the link
inside the code markers. -/
theorem c5_style_composer_order (c : Option String) (style : DocTextStyle) :
    processTextRun { content := c, textStyle := some style } =
      (if c.getD "" = "\n" then c.getD ""
       else codeWrap style (linkWrap style (strikethroughWrap style
         (underlineWrap style (emphasisWrap style (c.getD "")))))) ∧
    processTextRun { content := c, textStyle := none } = c.getD "" := by
  constructor
  · simp only [processTextRun, emphasisWrap, underlineWrap, strikethroughWrap, linkWrap, codeWrap]
  · rfl

/-! ## Spec-side characterisation of the table renderer -/

def tableRowLine (row : TableRow) : String :=
  "| " ++ String.intercalate " | " (row.tableCells.map (fun cell =>
    let cellText := tableCellText cell
    if cellText = "" then " " else cellText)) ++ " |\n"

def tableSeparatorLine (row : TableRow) : String :=
  "| " ++ String.intercalate " | " (List.replicate row.tableCells.length "---") ++ " |\n"

/-- The run texts nested inside one table cell, in document order. -/
def cellRunContents (cell : TableCell) : List String :=
  (cell.content.map (fun element =>
    match element.paragraph with
    | some para => para.elements.filterMap (fun te => te.textRun.bind (fun tr => tr.content))
    | none => [])).flatten

lemma concatStrings_append (l1 l2 : List String) :
    concatStrings (l1 ++ l2) = concatStrings l1 ++ concatStrings l2 := by
  induction l1 with
  | nil => simp [concatStrings, String.empty_append]
  | cons s rest ih => simp [concatStrings, ih, String.append_assoc]

lemma processTableRows_succ (rest : List TableRow) (i : Nat) :
    processTableRows (i + 1) rest = concatStrings (rest.map tableRowLine) := by
  induction rest generalizing i with
  | nil => rfl
  | cons row rs ih =>
    simp only [processTableRows, List.map_cons, concatStrings]
    rw [ih]
    simp [tableRowLine, String.append_empty]

lemma cellParagraphRefine (elems : List ParagraphElement) :
    concatStrings (elems.map (fun textElement =>
      match textElement.textRun with
      | some tr =>
        match tr.content with
        | some c => if c != "" then jsTrim (collapseNewlines c) else ""
        | none => ""
      | none => "")) =
    concatStrings ((elems.filterMap (fun te => te.textRun.bind (fun tr => tr.content))).map
      (fun c => jsTrim (collapseNewlines c))) := by
  induction elems with
  | nil => rfl
  | cons te rest ih =>
    match hte : te.textRun with
    | none =>
      simp only [List.map_cons, concatStrings, List.filterMap_cons, hte, Option.none_bind]
      rw [ih, String.empty_append]
    | some tr =>
      match htc : tr.content with
      | none =>
        simp only [List.map_cons, concatStrings, List.filterMap_cons, hte, Option.some_bind, htc]
        rw [ih, String.empty_append]
      | some c =>
        by_cases hc : c = ""
        · subst hc
          have hz : jsTrim (collapseNewlines "") = "" := rfl
          simp only [List.map_cons, concatStrings, List.filterMap_cons, hte, Option.some_bind,
            htc, bne_self_eq_false, if_false, List.map_cons]
          rw [ih, if_neg (by decide), hz]
        · have hb : (c != "") = true := by simpa using hc
          simp only [List.map_cons, concatStrings, List.filterMap_cons, hte, Option.some_bind,
            htc, hb, if_true, List.map_cons]
          rw [ih]

lemma tableCellText_refine (cell : TableCell) :
    tableCellText cell =
      concatStrings ((cellRunContents cell).map (fun c => jsTrim (collapseNewlines c))) := by
  obtain ⟨l⟩ := cell
  simp only [tableCellText, cellRunContents]
  induction l with
  | nil => rfl
  | cons e rest ih =>
    match he : e.paragraph with
    | none =>
      simp only [List.map_cons, concatStrings, he, List.flatten_cons, List.nil_append]
      rw [ih, String.empty_append]
    | some para =>
      simp only [List.map_cons, concatStrings, he, List.flatten_cons, List.map_append,
        concatStrings_append]
      rw [ih, cellParagraphRefine]

/-- C7: rendering a table with first row `r` and remaining rows `rest` emits one
pipe-delimited row per table row, with a separator row of `---` cells — as many as
the first row has cells — immediately after the first row; and each cell's text is
the concatenation of its nested runs with embedded newlines collapsed to spaces
and each trimmed, an empty cell rendering as a single space. -/
theorem c7_table_rendering (r : TableRow) (rest : List TableRow) (cell : TableCell) :
    processTable { tableRows := r :: rest } =
      "\n" ++ tableRowLine r ++ tableSeparatorLine r ++ concatStrings (rest.map tableRowLine) ++ "\n" ∧
    tableCellText cell =
      concatStrings ((cellRunContents cell).map (fun c => jsTrim (collapseNewlines c))) := by
  constructor
  · simp only [processTable, List.isEmpty_cons, Bool.false_eq_true, if_false, processTableRows,
      if_pos rfl]
    rw [processTableRows_succ]
    simp [tableRowLine, tableSeparatorLine, List.map_map, String.append_assoc,
      Function.comp_def, List.map_const']
  · exact tableCellText_refine cell

/-! ## Spec-side predicates for the paragraph renderer -/

def isRecognizedStyle (style : Option String) : Bool :=
  style == some "HEADING_1" || style == some "HEADING_2" || style == some "HEADING_3" ||
  style == some "HEADING_4" || style == some "HEADING_5" || style == some "HEADING_6" ||
  style == some "TITLE" || style == some "SUBTITLE"

def headingPrefixFor (style : Option String) : String :=
  if style = some "HEADING_1" then "# "
  else if style = some "HEADING_2" then "## "
  else if style = some "HEADING_3" then "### "
  else if style = some "HEADING_4" then "#### "
  else if style = some "HEADING_5" then "##### "
  else if style = some "HEADING_6" then "###### "
  else if style = some "TITLE" then "# "
  else if style = some "SUBTITLE" then "## "
  else ""

/-- The switch of `processParagraph` as a function of the already-computed named
style, trimmed text and bullet descriptor. -/
def renderParagraphCore (style : Option String) (trimmedText : String)
    (bullet : Option DocBullet) : String :=
  if trimmedText = "" then "\n"
  else if style = some "HEADING_1" then "# " ++ trimmedText ++ "\n\n"
  else if style = some "HEADING_2" then "## " ++ trimmedText ++ "\n\n"
  else if style = some "HEADING_3" then "### " ++ trimmedText ++ "\n\n"
  else if style = some "HEADING_4" then "#### " ++ trimmedText ++ "\n\n"
  else if style = some "HEADING_5" then "##### " ++ trimmedText ++ "\n\n"
  else if style = some "HEADING_6" then "###### " ++ trimmedText ++ "\n\n"
  else if style = some "TITLE" then "# " ++ trimmedText ++ "\n\n"
  else if style = some "SUBTITLE" then "## " ++ trimmedText ++ "\n\n"
  else
    match bullet with
    | some b =>
      let nestingLevel := b.nestingLevel.getD 0
      let indent := strRepeat "  " nestingLevel
      let marker := if nestingLevel = 0 then "1." else "-"
      indent ++ marker ++ " " ++ trimmedText ++ "\n"
    | none => trimmedText ++ "\n\n"

lemma processParagraph_core (p : Paragraph) :
    processParagraph p =
      renderParagraphCore (paragraphNamedStyle p)
        (trimTrailingNewlines (paragraphRunsText p)) p.bullet := rfl

lemma paragraphNamedStyle_removeBullet (p : Paragraph) :
    paragraphNamedStyle { p with bullet := none } = paragraphNamedStyle p := rfl

lemma paragraphRunsText_removeBullet (p : Paragraph) :
    paragraphRunsText { p with bullet := none } = paragraphRunsText p := rfl

lemma renderParagraphCore_recognized (s : Option String) (t : String) (bl : Option DocBullet)
    (h : isRecognizedStyle s = true) :
    renderParagraphCore s t bl = renderParagraphCore s t none ∧
    (t ≠ "" → renderParagraphCore s t bl = headingPrefixFor s ++ t ++ "\n\n") := by
  simp only [isRecognizedStyle, Bool.or_eq_true, beq_iff_eq, or_assoc] at h
  rcases h with h | h | h | h | h | h | h | h <;> subst h <;>
    exact ⟨rfl, fun hne => by simp [renderParagraphCore, headingPrefixFor, hne]⟩

lemma renderParagraphCore_bullet (s : Option String) (t : String) (b : DocBullet)
    (h : isRecognizedStyle s = false) (hne : t ≠ "") :
    renderParagraphCore s t (some b) =
      strRepeat "  " (b.nestingLevel.getD 0) ++
        (if b.nestingLevel.getD 0 = 0 then "1." else "-") ++ " " ++ t ++ "\n" := by
  have h1 : s ≠ some "HEADING_1" := by intro he; subst he; simp [isRecognizedStyle] at h
  have h2 : s ≠ some "HEADING_2" := by intro he; subst he; simp [isRecognizedStyle] at h
  have h3 : s ≠ some "HEADING_3" := by intro he; subst he; simp [isRecognizedStyle] at h
  have h4 : s ≠ some "HEADING_4" := by intro he; subst he; simp [isRecognizedStyle] at h
  have h5 : s ≠ some "HEADING_5" := by intro he; subst he; simp [isRecognizedStyle] at h
  have h6 : s ≠ some "HEADING_6" := by intro he; subst he; simp [isRecognizedStyle] at h
  have h7 : s ≠ some "TITLE" := by intro he; subst he; simp [isRecognizedStyle] at h
  have h8 : s ≠ some "SUBTITLE" := by intro he; subst he; simp [isRecognizedStyle] at h
  simp [renderParagraphCore, h1, h2, h3, h4, h5, h6, h7, h8, hne]

/-- C9: a paragraph whose named style is one of HEADING_1..6, TITLE or SUBTITLE is
rendered identically whether or not it carries a bullet descriptor — the heading
prefix is emitted and the list indent/marker never is — while the bullet branch is
taken exactly for bulleted paragraphs with no recognized named style. -/
theorem c9_style_precedence :
    (∀ (p : Paragraph), isRecognizedStyle (paragraphNamedStyle p) = true →
      processParagraph p = processParagraph { p with bullet := none } ∧
      (trimTrailingNewlines (paragraphRunsText p) ≠ "" →
        processParagraph p =
          headingPrefixFor (paragraphNamedStyle p) ++
            trimTrailingNewlines (paragraphRunsText p) ++ "\n\n")) ∧
    (∀ (p : Paragraph) (b : DocBullet), isRecognizedStyle (paragraphNamedStyle p) = false →
      p.bullet = some b → trimTrailingNewlines (paragraphRunsText p) ≠ "" →
      processParagraph p =
        strRepeat "  " (b.nestingLevel.getD 0) ++
          (if b.nestingLevel.getD 0 = 0 then "1." else "-") ++ " " ++
          trimTrailingNewlines (paragraphRunsText p) ++ "\n") := by
  constructor
  · intro p h
    have hcore := renderParagraphCore_recognized (paragraphNamedStyle p)
      (trimTrailingNewlines (paragraphRunsText p)) p.bullet h
    constructor
    · rw [processParagraph_core, processParagraph_core, paragraphNamedStyle_removeBullet,
        paragraphRunsText_removeBullet]
      exact hcore.1
    · intro hne
      rw [processParagraph_core]
      exact hcore.2 hne
  · intro p b h hb hne
    rw [processParagraph_core, hb]
    exact renderParagraphCore_bullet (paragraphNamedStyle p)
      (trimTrailingNewlines (paragraphRunsText p)) b h hne

def c9P : Paragraph :=
  { paragraphStyle := some { namedStyleType := some "HEADING_1" },
    bullet := some { nestingLevel := some 1 },
    elements := [{ textRun := some { content := some "T" } }] }

/-- C9 witness: a concrete HEADING_1 paragraph carrying a bullet renders without
the list marker, via the precedence theorem. -/
theorem c9_style_precedence_witness :
    processParagraph c9P = processParagraph { c9P with bullet := none } ∧
    processParagraph c9P =
      headingPrefixFor (paragraphNamedStyle c9P) ++
        trimTrailingNewlines (paragraphRunsText c9P) ++ "\n\n" :=
  ⟨(c9_style_precedence.1 c9P (by decide)).1,
   (c9_style_precedence.1 c9P (by decide)).2 (by decide)⟩

/-! ## Zero-index truthiness and validation failures of the compiler -/

/-- C8: any delete, replace, updateTextStyle, updateParagraphStyle or insertBefore
intent whose uniquely-resolved target element carries `startIndex = 0` (present but
zero) is rejected with the missing-index error, because index presence is tested by
JS truthiness; such elements can never be targeted by these operations. -/
theorem c8_zero_index_rejected :
    (∀ (t : Element) (args : JsonPathArgs),
      args.operation = Operation.delete → t.startIndex = some 0 →
      compileForTarget t args =
        Except.error "Target element must have startIndex and endIndex for delete operation") ∧
    (∀ (t : Element) (args : JsonPathArgs) (ts : TextStylePatch),
      args.operation = Operation.updateTextStyle → args.textStyle = some ts →
      t.startIndex = some 0 →
      compileForTarget t args =
        Except.error "Target element must have startIndex and endIndex for updateTextStyle operation") ∧
    (∀ (t : Element) (args : JsonPathArgs) (ps : ParagraphStylePatch),
      args.operation = Operation.updateParagraphStyle → args.paragraphStyle = some ps →
      t.startIndex = some 0 →
      compileForTarget t args =
        Except.error "Target element must have startIndex and endIndex for updateParagraphStyle operation") ∧
    (∀ (t : Element) (args : JsonPathArgs) (c : ContentItem) (cs : List ContentItem),
      args.operation = Operation.replace → args.content = some (c :: cs) →
      t.startIndex = some 0 →
      compileForTarget t args =
        Except.error "Target element must have startIndex and endIndex for replace operation") ∧
    (∀ (t : Element) (args : JsonPathArgs) (c : ContentItem) (cs : List ContentItem),
      args.operation = Operation.insertBefore → args.content = some (c :: cs) →
      t.startIndex = some 0 →
      compileForTarget t args = Except.error "Target element does not have a startIndex") := by
  refine ⟨?_, ?_, ?_, ?_, ?_⟩
  · intro t args hop hs
    simp [compileForTarget, hop, hs, truthyIdx]
  · intro t args ts hop hts hs
    simp [compileForTarget, hop, hts, hs, truthyIdx]
  · intro t args ps hop hps hs
    simp [compileForTarget, hop, hps, hs, truthyIdx]
  · intro t args c cs hop hc hs
    simp [compileForTarget, hop, hc, hs, truthyIdx]
  · intro t args c cs hop hc hs
    simp [compileForTarget, hop, hc, hs, truthyIdx]

/-- C8 witness: a delete intent against a concrete element with `startIndex = 0`
and a perfectly good `endIndex` is rejected with the missing-index error. -/
theorem c8_zero_index_rejected_witness :
    compileForTarget { startIndex := some 0, endIndex := some 5 }
        { operation := Operation.delete } =
      Except.error "Target element must have startIndex and endIndex for delete operation" :=
  c8_zero_index_rejected.1 { startIndex := some 0, endIndex := some 5 }
    { operation := Operation.delete } rfl rfl

lemma generateRequestsFromContent_emptyBullet (i : Nat) :
    generateRequestsFromContent [ContentItem.bulletList []] i = [] := rfl

/-- C10: an insertAfter or insertBefore intent whose content is the single item
`bulletList{items: []}` passes the non-empty-content validation, yet compiles to
zero mutation instructions, so the handler proceeds to submit an empty batch
(`Except.ok []`) instead of rejecting the intent up front. -/
theorem c10_empty_bulletlist :
    (∀ (i : Nat), generateRequestsFromContent [ContentItem.bulletList []] i = []) ∧
    (∀ (target : String) (t : Element) (args : JsonPathArgs),
      args.operation = Operation.insertAfter →
      args.content = some [ContentItem.bulletList []] →
      truthyIdx t.endIndex = true →
      compileOperation target [t] args = Except.ok []) ∧
    (∀ (target : String) (t : Element) (args : JsonPathArgs),
      args.operation = Operation.insertBefore →
      args.content = some [ContentItem.bulletList []] →
      truthyIdx t.startIndex = true →
      compileOperation target [t] args = Except.ok []) := by
  refine ⟨generateRequestsFromContent_emptyBullet, ?_, ?_⟩
  · intro target t args hop hc hi
    simp [compileOperation, compileForTarget, hop, hc, hi, generateRequestsFromContent_emptyBullet]
  · intro target t args hop hc hi
    simp [compileOperation, compileForTarget, hop, hc, hi, generateRequestsFromContent_emptyBullet]

/-- C10 witness: a concrete insertAfter with content `[bulletList([])]` against an
element with `endIndex = 9` succeeds with an empty instruction list. -/
theorem c10_empty_bulletlist_witness :
    compileOperation "$.body.content[1]" [{ startIndex := some 5, endIndex := some 9 }]
        { operation := Operation.insertAfter,
          content := some [ContentItem.bulletList []] } =
      Except.ok [] :=
  c10_empty_bulletlist.2.1 "$.body.content[1]" { startIndex := some 5, endIndex := some 9 }
    { operation := Operation.insertAfter, content := some [ContentItem.bulletList []] }
    rfl rfl rfl

/-! ## Atomicity: every up-front validation failure throws before the batch call -/

/-- The compilation-time validation failures enumerated by the specification:
an unparseable document reference, zero or ambiguous locator matches, a missing
required style or content payload, or a uniquely-resolved target lacking the
indices its operation requires. -/
def failsValidation (doc_id_or_url : String) (results : List Element)
    (args : JsonPathArgs) : Prop :=
  extractDocId doc_id_or_url = none ∨
  results = [] ∨
  1 < results.length ∨
  (args.operation = Operation.updateTextStyle ∧ args.textStyle = none) ∨
  (args.operation = Operation.updateParagraphStyle ∧ args.paragraphStyle = none) ∨
  ((args.operation = Operation.replace ∨ args.operation = Operation.insertAfter ∨
      args.operation = Operation.insertBefore) ∧
    (args.content = none ∨ args.content = some [])) ∨
  (∃ t, results = [t] ∧
    (((args.operation = Operation.updateTextStyle ∨
        args.operation = Operation.updateParagraphStyle ∨
        args.operation = Operation.delete ∨ args.operation = Operation.replace) ∧
       (truthyIdx t.startIndex = false ∨ truthyIdx t.endIndex = false)) ∨
     (args.operation = Operation.insertAfter ∧ truthyIdx t.endIndex = false) ∨
     (args.operation = Operation.insertBefore ∧ truthyIdx t.startIndex = false)))

lemma cft_content_missing (t : Element) (args : JsonPathArgs)
    (hop : args.operation = Operation.replace ∨ args.operation = Operation.insertAfter ∨
      args.operation = Operation.insertBefore)
    (hc : args.content = none ∨ args.content = some []) :
    ∃ msg, compileForTarget t args = Except.error msg := by
  rcases hop with h | h | h <;> rcases hc with hc | hc <;> simp [compileForTarget, h, hc]

lemma cft_range_missing (t : Element) (args : JsonPathArgs)
    (hop : args.operation = Operation.updateTextStyle ∨
      args.operation = Operation.updateParagraphStyle ∨
      args.operation = Operation.delete ∨ args.operation = Operation.replace)
    (hidx : truthyIdx t.startIndex = false ∨ truthyIdx t.endIndex = false) :
    ∃ msg, compileForTarget t args = Except.error msg := by
  rcases hop with h | h | h | h
  · match hts : args.textStyle with
    | none => simp [compileForTarget, h, hts]
    | some ts => rcases hidx with hi | hi <;> simp [compileForTarget, h, hts, hi]
  · match hps : args.paragraphStyle with
    | none => simp [compileForTarget, h, hps]
    | some ps => rcases hidx with hi | hi <;> simp [compileForTarget, h, hps, hi]
  · rcases hidx with hi | hi <;> simp [compileForTarget, h, hi]
  · match hc : args.content with
    | none => simp [compileForTarget, h, hc]
    | some [] => simp [compileForTarget, h, hc]
    | some (c :: cs) => rcases hidx with hi | hi <;> simp [compileForTarget, h, hc, hi]

lemma cft_insertAfter_end (t : Element) (args : JsonPathArgs)
    (hop : args.operation = Operation.insertAfter) (hi : truthyIdx t.endIndex = false) :
    ∃ msg, compileForTarget t args = Except.error msg := by
  match hc : args.content with
  | none => simp [compileForTarget, hop, hc]
  | some [] => simp [compileForTarget, hop, hc]
  | some (c :: cs) => simp [compileForTarget, hop, hc, hi]

lemma cft_insertBefore_start (t : Element) (args : JsonPathArgs)
    (hop : args.operation = Operation.insertBefore) (hi : truthyIdx t.startIndex = false) :
    ∃ msg, compileForTarget t args = Except.error msg := by
  match hc : args.content with
  | none => simp [compileForTarget, hop, hc]
  | some [] => simp [compileForTarget, hop, hc]
  | some (c :: cs) => simp [compileForTarget, hop, hc, hi]

lemma compileOperation_error_all (target : String) (results : List Element)
    (args : JsonPathArgs) (h : ∀ t, ∃ msg, compileForTarget t args = Except.error msg) :
    ∃ msg, compileOperation target results args = Except.error msg := by
  match results with
  | [] => exact ⟨_, rfl⟩
  | [t] => exact h t
  | a :: b :: r => exact ⟨_, rfl⟩

/-- C6: whenever an edit intent fails compilation-time validation — an unparseable
document reference, zero or ambiguous locator matches, a missing required style or
content payload, or a target lacking the indices its operation needs — the handler
throws before any batch-update call, so no mutation instruction is ever submitted. -/
theorem c6_atomicity_up_front (doc_id_or_url target : String) (results : List Element)
    (args : JsonPathArgs) (h : failsValidation doc_id_or_url results args) :
    ∃ msg, handleJsonPathOperation doc_id_or_url target results args = Except.error msg := by
  cases hid : extractDocId doc_id_or_url with
  | none => simp [handleJsonPathOperation, hid]
  | some docId =>
    have hred : handleJsonPathOperation doc_id_or_url target results args =
        compileOperation target results args := by
      simp [handleJsonPathOperation, hid]
    rw [hred]
    rcases h with h | h | h | h | h | h | h
    · rw [h] at hid; cases hid
    · subst h; exact ⟨_, rfl⟩
    · rcases results with _ | ⟨a, _ | ⟨b, r⟩⟩
      · simp at h
      · simp at h
      · exact ⟨_, rfl⟩
    · exact compileOperation_error_all target results args
        (fun t => by simp [compileForTarget, h.1, h.2])
    · exact compileOperation_error_all target results args
        (fun t => by simp [compileForTarget, h.1, h.2])
    · exact compileOperation_error_all target results args
        (fun t => cft_content_missing t args h.1 h.2)
    · obtain ⟨t, hres, hcond⟩ := h
      subst hres
      have hone : ∃ msg, compileForTarget t args = Except.error msg := by
        rcases hcond with ⟨hop4, hidx⟩ | ⟨hop, hi⟩ | ⟨hop, hi⟩
        · exact cft_range_missing t args hop4 hidx
        · exact cft_insertAfter_end t args hop hi
        · exact cft_insertBefore_start t args hop hi
      exact hone

/-- C6 witness: an unparseable document reference (the empty string) makes the
handler raise an error before any batch call. -/
theorem c6_atomicity_up_front_witness :
    ∃ msg, handleJsonPathOperation "" "$.body.content[1]" []
      { operation := Operation.delete } = Except.error msg :=
  c6_atomicity_up_front "" "$.body.content[1]" [] { operation := Operation.delete }
    (Or.inl rfl)
